import Mathlib

/-!
# golang-book-api: the record store, the filter predicate, pagination and the
list handler

A shallow embedding of `internal/models`, `internal/storage` and the `/books`
handler of `internal/handlers`.

* Go `int` values are `Int`; where the code computes with them the 64-bit
  wrap-around is explicit (`wrap64`).
* Go `string` values are `String`.
* A method with a pointer receiver that mutates the store takes the store and
  returns the new store next to its Go results.
* A Go result `(v, err)` is an `Except Err _`; a lone `error` is an `Option Err`.
* The `sync.RWMutex` of the store is not represented: every operation is one
  atomic transition, which is what the lock provides.
-/

set_option autoImplicit false

namespace BookApi

/-! ## internal/models -/

/-- The error values of `internal/models/errors.go`. -/
inductive Err where
  | ErrBookNotFound
  | ErrInvalidTitle
  | ErrInvalidAuthor
  | ErrInvalidID
deriving DecidableEq, Repr

/-- The message of each error value, `err.Error()`. -/
def Err.Error : Err → String
  | .ErrBookNotFound => "book not found"
  | .ErrInvalidTitle => "book title cannot be empty"
  | .ErrInvalidAuthor => "book author cannot be empty"
  | .ErrInvalidID => "invalid book ID"

/-- The struct `Book` of `internal/models/book.go`. -/
structure Book where
  ID : Int
  Title : String
  Author : String
deriving DecidableEq, Repr

/-- The struct `BookFilters` of `internal/models/filters.go`. -/
structure BookFilters where
  Title : String
  Author : String
  Search : String
deriving DecidableEq, Repr

/-- The two functions of Go's standard package `strings` that `Match` calls.
They are library code, so `Match` takes them as a parameter. -/
structure Strings where
  ToLower : String → String
  Contains : String → String → Bool

/-- The facts about `strings.ToLower` and `strings.Contains` that case
insensitivity rests on: lowering twice is lowering once, lowering keeps the
empty string apart from the others, and every string contains itself. -/
structure Strings.Lawful (L : Strings) : Prop where
  lower_lower : ∀ s, L.ToLower (L.ToLower s) = L.ToLower s
  lower_empty : ∀ s, L.ToLower s = "" ↔ s = ""
  contains_self : ∀ s, L.Contains s s = true

/-- A string, or its lower-cased form when `c` is set. -/
def Strings.lowerIf (L : Strings) (c : Bool) (s : String) : String :=
  if c then L.ToLower s else s

/-- Lower-case one character: `A`..`Z` move to `a`..`z`, the rest stays. -/
def lowerChar (c : Char) : Char :=
  if 65 ≤ c.toNat ∧ c.toNat ≤ 90 then Char.ofNat (c.toNat + 32) else c

/-- Whether `sub` occurs in `s` as a contiguous block. -/
def containsChars (s sub : List Char) : Bool :=
  s.tails.any (fun t => sub.isPrefixOf t)

/-- The package `strings` on strings whose letters are ASCII. -/
def asciiStrings : Strings where
  ToLower := fun s => String.mk (s.data.map lowerChar)
  Contains := fun s sub => containsChars s.data sub.data

/-- `BookFilters.Match` of `internal/models/filters.go`: three guarded blocks,
each of which may return false, then `return true`. -/
def BookFilters.Match (L : Strings) (f : BookFilters) (book : Book) : Bool :=
  if f.Search ≠ "" ∧
      (L.Contains (L.ToLower book.Title) (L.ToLower f.Search) = false ∧
       L.Contains (L.ToLower book.Author) (L.ToLower f.Search) = false) then
    false
  else if f.Title ≠ "" ∧
      L.Contains (L.ToLower book.Title) (L.ToLower f.Title) = false then
    false
  else if f.Author ≠ "" ∧
      L.Contains (L.ToLower book.Author) (L.ToLower f.Author) = false then
    false
  else
    true

/-- `BookFilters.HasFilters` of `internal/models/filters.go`. -/
def BookFilters.HasFilters (f : BookFilters) : Bool :=
  decide (f.Title ≠ "" ∨ f.Author ≠ "" ∨ f.Search ≠ "")

/-- `Book.Validate` of `internal/models/book.go`; `none` is the nil error. -/
def Book.Validate (b : Book) : Option Err :=
  if b.Title = "" then some .ErrInvalidTitle
  else if b.Author = "" then some .ErrInvalidAuthor
  else none

/-! ### Go `int` arithmetic

Go `int` is 64 bits wide and signed; `+`, `-` and `*` wrap around, `/`
truncates toward zero and `%` takes the sign of the dividend. -/

/-- The value in `[-2^63, 2^63)` that is congruent to `x` modulo `2^64`. -/
def wrap64 (x : Int) : Int :=
  (x + 2 ^ 63) % 2 ^ 64 - 2 ^ 63

/-- `a + b` on Go `int`. -/
def add64 (a b : Int) : Int := wrap64 (a + b)

/-- `a - b` on Go `int`. -/
def sub64 (a b : Int) : Int := wrap64 (a - b)

/-- `a * b` on Go `int`. -/
def mul64 (a b : Int) : Int := wrap64 (a * b)

/-- `a / b` on Go `int`, for `b` other than zero. -/
def div64 (a b : Int) : Int := wrap64 (Int.tdiv a b)

/-- `a % b` on Go `int`, for `b` other than zero. -/
def rem64 (a b : Int) : Int := Int.tmod a b

/-- The part of `*http.Request` that the code reads: the method and
`r.URL.Query().Get(key)`, which is the empty string for an absent key. -/
structure Request where
  Method : String
  Get : String → String

/-- The value of a run of decimal digits read from the left, `acc` being the
value of the digits before it; `none` when a character is not a digit. -/
def digitsValue (acc : Nat) : List Char → Option Nat
  | [] => some acc
  | c :: rest =>
    if 48 ≤ c.toNat ∧ c.toNat ≤ 57 then digitsValue (acc * 10 + (c.toNat - 48)) rest
    else none

/-- `strconv.Atoi` of Go's standard library, which is library code: an
optional sign, then one decimal digit or more, the value within the range of
`int`; `none` is the error result. -/
def decAtoi (s : String) : Option Int :=
  match s.data with
  | [] => none
  | c :: rest =>
    if c = '-' then
      match rest with
      | [] => none
      | _ => (digitsValue 0 rest).bind fun n =>
          if n ≤ 2 ^ 63 then some (-(n : Int)) else none
    else if c = '+' then
      match rest with
      | [] => none
      | _ => (digitsValue 0 rest).bind fun n =>
          if n < 2 ^ 63 then some (n : Int) else none
    else
      (digitsValue 0 (c :: rest)).bind fun n =>
        if n < 2 ^ 63 then some (n : Int) else none

/-- The struct `PaginationParams` of `internal/models/pagination.go`. -/
structure PaginationParams where
  Page : Int
  PageSize : Int
  Offset : Int
deriving DecidableEq, Repr

/-- The struct `PaginatedResponse` of `internal/models/pagination.go`; the
type of `Data` is `interface{}` in Go and a parameter here. -/
structure PaginatedResponse (α : Type) where
  Data : α
  Page : Int
  PageSize : Int
  Total : Int
  TotalPages : Int
deriving DecidableEq, Repr

/-- The `page` block of `ParsePaginationParams`. -/
def parsePage (Atoi : String → Option Int) (p : String) : Int :=
  if p ≠ "" then
    match Atoi p with
    | some parsed => if parsed > 0 then parsed else 1
    | none => 1
  else 1

/-- The `page_size` block of `ParsePaginationParams`. -/
def parsePageSize (Atoi : String → Option Int) (ps : String) : Int :=
  if ps ≠ "" then
    match Atoi ps with
    | some parsed => if parsed > 0 ∧ parsed ≤ 100 then parsed else 10
    | none => 10
  else 10

/-- `ParsePaginationParams` of `internal/models/pagination.go`, with
`strconv.Atoi` as a parameter. -/
def ParsePaginationParams (Atoi : String → Option Int) (r : Request) :
    PaginationParams :=
  let page := parsePage Atoi (r.Get "page")
  let pageSize := parsePageSize Atoi (r.Get "page_size")
  let offset := mul64 (sub64 page 1) pageSize
  { Page := page, PageSize := pageSize, Offset := offset }

/-- `NewPaginatedResponse` of `internal/models/pagination.go`; `none` is the
run-time panic of the integer division when `pageSize` is zero. -/
def NewPaginatedResponse {α : Type} (data : α) (page pageSize total : Int) :
    Option (PaginatedResponse α) :=
  if pageSize = 0 then none
  else
    let totalPages := div64 total pageSize
    let totalPages := if rem64 total pageSize ≠ 0 then add64 totalPages 1 else totalPages
    some { Data := data, Page := page, PageSize := pageSize, Total := total,
           TotalPages := totalPages }

/-! ## internal/storage -/

/-- The generator `*rand.Rand` of Go's `math/rand`, which is library code.
Its state is represented by the sequence of raw values that the coming calls
will draw. -/
structure Rand where
  draws : Nat → Nat

/-- `(*rand.Rand).Intn`: a value in `[0, n)` and the advanced generator. -/
def Rand.Intn (r : Rand) (n : Nat) : Int × Rand :=
  (((r.draws 0 % n : Nat) : Int), ⟨fun k => r.draws (k + 1)⟩)

/-- The struct `MemoryStorage` of `internal/storage/memory.go`. -/
structure MemoryStorage where
  books : List Book
  rng : Rand

/-- `NewMemoryStorage`: no books; the generator is seeded from the clock, so
the seeded generator is an argument. -/
def NewMemoryStorage (seeded : Rand) : MemoryStorage :=
  { books := [], rng := seeded }

/-- `MemoryStorage.GetAll`: a copy of the slice and a nil error. -/
def GetAll (s : MemoryStorage) : Except Err (List Book) :=
  .ok s.books

/-- The `for _, book := range s.books` loop of `GetByID`. -/
def getByIDLoop (id : Int) : List Book → Except Err Book
  | [] => .error .ErrBookNotFound
  | book :: rest => if book.ID = id then .ok book else getByIDLoop id rest

/-- `MemoryStorage.GetByID`. -/
def GetByID (s : MemoryStorage) (id : Int) : Except Err Book :=
  getByIDLoop id s.books

/-- `MemoryStorage.Create`: draw the id, append, return the stored record. -/
def Create (s : MemoryStorage) (book : Book) : MemoryStorage × Except Err Book :=
  let drawn := s.rng.Intn 1000000
  let book1 : Book := { book with ID := drawn.1 }
  ({ books := s.books ++ [book1], rng := drawn.2 }, .ok book1)

/-- The `for i, b := range s.books` loop shared by `Update` and `Delete`: the
first index whose record has the id, if there is one. -/
def findIndex (id : Int) : List Book → Option Nat
  | [] => none
  | b :: rest => if b.ID = id then some 0 else (findIndex id rest).map (· + 1)

/-- `MemoryStorage.Update`: at the first index with the id, `book.ID = id` and
`s.books[i] = book`. -/
def Update (s : MemoryStorage) (id : Int) (book : Book) :
    MemoryStorage × Except Err Book :=
  match findIndex id s.books with
  | some i =>
    let book1 : Book := { book with ID := id }
    ({ s with books := s.books.set i book1 }, .ok book1)
  | none => (s, .error .ErrBookNotFound)

/-- `MemoryStorage.Delete`: at the first index with the id,
`s.books = append(s.books[:i], s.books[i+1:]...)`. -/
def Delete (s : MemoryStorage) (id : Int) : MemoryStorage × Option Err :=
  match findIndex id s.books with
  | some i => ({ s with books := s.books.take i ++ s.books.drop (i + 1) }, none)
  | none => (s, some .ErrBookNotFound)

/-- One mutating call on the store. -/
inductive Op where
  | create (book : Book)
  | update (id : Int) (book : Book)
  | delete (id : Int)

/-- The store after one mutating call. -/
def step (s : MemoryStorage) : Op → MemoryStorage
  | .create book => (Create s book).1
  | .update id book => (Update s id book).1
  | .delete id => (Delete s id).1

/-- The store after a sequence of mutating calls, first call first. -/
def run (s : MemoryStorage) (ops : List Op) : MemoryStorage :=
  ops.foldl step s

/-- The generator whose every draw is `n`. -/
def constRand (n : Nat) : Rand := ⟨fun _ => n⟩

/-! ## internal/handlers -/

/-- What `respondWithJSON` is given to encode by the handlers of `/books`: a
slice of books (a JSON array), one book (a JSON object), or the map with the
one key `error` of `respondWithError`. -/
inductive Payload where
  | books (all : List Book)
  | book (b : Book)
  | error (message : String)
deriving DecidableEq, Repr

/-- The status code and the body that a handler writes. -/
structure Response where
  code : Nat
  payload : Payload
deriving DecidableEq, Repr

/-- `BookHandler.getBooks` of `internal/handlers/books.go`. -/
def getBooks (s : MemoryStorage) (_r : Request) : MemoryStorage × Response :=
  match GetAll s with
  | .error _ => (s, ⟨500, .error "Failed to retrieve books"⟩)
  | .ok books => (s, ⟨200, .books books⟩)

/-- `BookHandler.createBook` of `internal/handlers/books.go`; `body` is the
result of decoding the request body, `none` when the decoder fails. -/
def createBook (s : MemoryStorage) (body : Option Book) : MemoryStorage × Response :=
  match body with
  | none => (s, ⟨400, .error "Invalid request payload"⟩)
  | some book =>
    match book.Validate with
    | some err => (s, ⟨400, .error err.Error⟩)
    | none =>
      match Create s book with
      | (s1, .error _) => (s1, ⟨500, .error "Failed to create book"⟩)
      | (s1, .ok createdBook) => (s1, ⟨201, .book createdBook⟩)

/-- `BookHandler.HandleBooks` of `internal/handlers/books.go`. -/
def HandleBooks (s : MemoryStorage) (r : Request) (body : Option Book) :
    MemoryStorage × Response :=
  if r.Method = "GET" then getBooks s r
  else if r.Method = "POST" then createBook s body
  else (s, ⟨405, .error "Method not allowed"⟩)

/-- The generator whose draws are 1, 2, 3, and so on. -/
def countRand : Rand := ⟨fun k => k + 1⟩

/-- The generator whose draws are 1, 2, up to `m`, then 1 again, and so on. -/
def cycleRand (m : Nat) : Rand := ⟨fun k => k % m + 1⟩

/-- A request to `/books` with the method and the values of `page` and
`page_size`; every other key is absent. -/
def listRequest (method page pageSize : String) : Request where
  Method := method
  Get := fun key =>
    if key = "page" then page else if key = "page_size" then pageSize else ""

/-! ## Lemmas on the loops -/

theorem getByIDLoop_absent (id : Int) (l : List Book)
    (h : ∀ b ∈ l, b.ID ≠ id) : getByIDLoop id l = .error .ErrBookNotFound := by
  induction l with
  | nil => rfl
  | cons x rest ih =>
    have hx : x.ID ≠ id := h x (List.mem_cons_self x rest)
    have hrest : ∀ b ∈ rest, b.ID ≠ id := fun b hb => h b (List.mem_cons_of_mem x hb)
    simp [getByIDLoop, hx, ih hrest]

theorem getByIDLoop_first (id : Int) (pre post : List Book) (x : Book)
    (hpre : ∀ b ∈ pre, b.ID ≠ id) (hx : x.ID = id) :
    getByIDLoop id (pre ++ x :: post) = .ok x := by
  induction pre with
  | nil => simp [getByIDLoop, hx]
  | cons y rest ih =>
    have hy : y.ID ≠ id := hpre y (List.mem_cons_self y rest)
    have hrest : ∀ b ∈ rest, b.ID ≠ id := fun b hb => hpre b (List.mem_cons_of_mem y hb)
    simp [getByIDLoop, hy, ih hrest]

theorem findIndex_absent (id : Int) (l : List Book)
    (h : ∀ b ∈ l, b.ID ≠ id) : findIndex id l = none := by
  induction l with
  | nil => rfl
  | cons x rest ih =>
    have hx : x.ID ≠ id := h x (List.mem_cons_self x rest)
    have hrest : ∀ b ∈ rest, b.ID ≠ id := fun b hb => h b (List.mem_cons_of_mem x hb)
    simp [findIndex, hx, ih hrest]

theorem findIndex_first (id : Int) (pre post : List Book) (x : Book)
    (hpre : ∀ b ∈ pre, b.ID ≠ id) (hx : x.ID = id) :
    findIndex id (pre ++ x :: post) = some pre.length := by
  induction pre with
  | nil => simp [findIndex, hx]
  | cons y rest ih =>
    have hy : y.ID ≠ id := hpre y (List.mem_cons_self y rest)
    have hrest : ∀ b ∈ rest, b.ID ≠ id := fun b hb => hpre b (List.mem_cons_of_mem y hb)
    simp [findIndex, hy, ih hrest]

/-- A list with a record of the id splits at the first such record. -/
theorem split_at_first (id : Int) (l : List Book) (h : ∃ b ∈ l, b.ID = id) :
    ∃ pre x post, l = pre ++ x :: post ∧ x.ID = id ∧ ∀ b ∈ pre, b.ID ≠ id := by
  induction l with
  | nil => simp at h
  | cons y rest ih =>
    by_cases hy : y.ID = id
    · exact ⟨[], y, rest, rfl, hy, by simp⟩
    · have hrest : ∃ b ∈ rest, b.ID = id := by
        obtain ⟨b, hb, hbid⟩ := h
        rcases List.mem_cons.mp hb with rfl | hb1
        · exact absurd hbid hy
        · exact ⟨b, hb1, hbid⟩
      obtain ⟨pre, x, post, hl, hx, hpre⟩ := ih hrest
      refine ⟨y :: pre, x, post, by simp [hl], hx, ?_⟩
      intro b hb
      rcases List.mem_cons.mp hb with rfl | hb1
      · exact hy
      · exact hpre b hb1

/-- When the loop finds nothing, no record has the id. -/
theorem findIndex_none (id : Int) (l : List Book) (h : findIndex id l = none) :
    ∀ b ∈ l, b.ID ≠ id := by
  intro b hb hbid
  obtain ⟨pre, x, post, hl, hx, hpre⟩ := split_at_first id l ⟨b, hb, hbid⟩
  rw [hl, findIndex_first id pre post x hpre hx] at h
  exact Option.noConfusion h

theorem take_drop_at (pre post : List Book) (x : Book) :
    (pre ++ x :: post).take pre.length ++ (pre ++ x :: post).drop (pre.length + 1)
      = pre ++ post := by
  induction pre with
  | nil => simp
  | cons y rest ih => simp [ih]

theorem set_at (pre post : List Book) (x y : Book) :
    (pre ++ x :: post).set pre.length y = pre ++ y :: post := by
  induction pre with
  | nil => simp
  | cons z rest ih => simp [ih]

theorem getElem?_at (pre post : List Book) (x : Book) :
    (pre ++ x :: post)[pre.length]? = some x := by
  rw [List.getElem?_append_right (Nat.le_refl _)]
  simp

/-- `Delete` on a store that splits at the first record with the id. -/
theorem Delete_split (rng : Rand) (id : Int) (pre post : List Book) (x : Book)
    (hpre : ∀ b ∈ pre, b.ID ≠ id) (hx : x.ID = id) :
    Delete ⟨pre ++ x :: post, rng⟩ id = (⟨pre ++ post, rng⟩, none) := by
  simp only [Delete, findIndex_first id pre post x hpre hx, take_drop_at]

/-- `Update` on a store that splits at the first record with the id. -/
theorem Update_split (rng : Rand) (id : Int) (book : Book) (pre post : List Book)
    (x : Book) (hpre : ∀ b ∈ pre, b.ID ≠ id) (hx : x.ID = id) :
    Update ⟨pre ++ x :: post, rng⟩ id book
      = (⟨pre ++ ⟨id, book.Title, book.Author⟩ :: post, rng⟩,
         .ok ⟨id, book.Title, book.Author⟩) := by
  simp only [Update, findIndex_first id pre post x hpre hx, set_at]

/-- `Create` followed by `GetByID` of the returned id gives the created record
back when no stored record had the drawn id. -/
theorem Create_GetByID_fresh (s : MemoryStorage) (book : Book)
    (hfresh : ∀ b ∈ s.books, b.ID ≠ (s.rng.Intn 1000000).1) :
    GetByID (Create s book).1 (s.rng.Intn 1000000).1
      = .ok ⟨(s.rng.Intn 1000000).1, book.Title, book.Author⟩ := by
  simp only [GetByID, Create]
  exact getByIDLoop_first _ s.books [] _ hfresh rfl

/-- `Delete` followed by `GetByID` of the same id finds nothing when the ids
of the store were pairwise distinct. -/
theorem Delete_GetByID_nodup (s : MemoryStorage) (id : Int)
    (hnodup : (s.books.map Book.ID).Nodup) (hdel : (Delete s id).2 = none) :
    GetByID (Delete s id).1 id = .error .ErrBookNotFound := by
  obtain ⟨books, rng⟩ := s
  by_cases h : ∃ b ∈ books, b.ID = id
  · obtain ⟨pre, x, post, hl, hx, hpre⟩ := split_at_first id books h
    subst hl
    rw [Delete_split rng id pre post x hpre hx]
    apply getByIDLoop_absent
    intro b hb
    rcases List.mem_append.mp hb with hb1 | hb1
    · exact hpre b hb1
    · intro hbid
      simp only [List.map_append, List.map_cons] at hnodup
      have h2 := (List.nodup_append.mp hnodup).2.1
      have h3 := (List.nodup_cons.mp h2).1
      exact h3 (by rw [hx, ← hbid]; exact List.mem_map_of_mem Book.ID hb1)
  · have habs : ∀ b ∈ books, b.ID ≠ id := fun b hb hbid => h ⟨b, hb, hbid⟩
    simp [Delete, findIndex_absent id books habs] at hdel

/-- `Update` leaves the sequence of ids as it was. -/
theorem Update_ids (s : MemoryStorage) (id : Int) (book : Book) :
    (Update s id book).1.books.map Book.ID = s.books.map Book.ID := by
  obtain ⟨books, rng⟩ := s
  by_cases h : ∃ b ∈ books, b.ID = id
  · obtain ⟨pre, x, post, hl, hx, hpre⟩ := split_at_first id books h
    subst hl
    rw [Update_split rng id book pre post x hpre hx]
    simp [hx]
  · have habs : ∀ b ∈ books, b.ID ≠ id := fun b hb hbid => h ⟨b, hb, hbid⟩
    simp only [Update, findIndex_absent id books habs]

/-- `Delete` keeps pairwise distinct ids pairwise distinct. -/
theorem Delete_nodup (s : MemoryStorage) (id : Int)
    (hnodup : (s.books.map Book.ID).Nodup) :
    ((Delete s id).1.books.map Book.ID).Nodup := by
  obtain ⟨books, rng⟩ := s
  by_cases h : ∃ b ∈ books, b.ID = id
  · obtain ⟨pre, x, post, hl, hx, hpre⟩ := split_at_first id books h
    subst hl
    rw [Delete_split rng id pre post x hpre hx]
    refine List.Nodup.sublist ?_ hnodup
    exact List.Sublist.map Book.ID
      (List.Sublist.append (List.Sublist.refl pre) (List.sublist_cons_self x post))
  · have habs : ∀ b ∈ books, b.ID ≠ id := fun b hb hbid => h ⟨b, hb, hbid⟩
    simpa only [Delete, findIndex_absent id books habs] using hnodup

/-- `Create` keeps pairwise distinct ids pairwise distinct exactly when the
drawn id is not stored yet. -/
theorem Create_nodup_iff (s : MemoryStorage) (book : Book)
    (hnodup : (s.books.map Book.ID).Nodup) :
    ((Create s book).1.books.map Book.ID).Nodup
      ↔ ∀ b ∈ s.books, b.ID ≠ (s.rng.Intn 1000000).1 := by
  simp only [Create, List.map_append, List.map_cons, List.map_nil]
  rw [List.nodup_append]
  constructor
  · intro h b hb hbid
    exact h.2.2 (List.mem_map_of_mem Book.ID hb) (by simp [hbid])
  · intro h
    refine ⟨hnodup, List.nodup_singleton _, ?_⟩
    intro a ha ha1
    obtain ⟨b, hb, rfl⟩ := List.mem_map.mp ha
    exact h b hb (by simpa using ha1)

/-! ## The store -/

/-- C1: two creates that draw the same id, then `GetByID` of the id the second
create returned: the lookup succeeds with that id but returns the record of
the first create, so its title and author are not the ones just given. -/
theorem Create_GetByID_collision :
    (Create (run (NewMemoryStorage (constRand 5)) [.create ⟨0, "A", "B"⟩])
        ⟨0, "C", "D"⟩).2 = .ok ⟨5, "C", "D"⟩
    ∧ GetByID (Create (run (NewMemoryStorage (constRand 5)) [.create ⟨0, "A", "B"⟩])
        ⟨0, "C", "D"⟩).1 5 = .ok ⟨5, "A", "B"⟩ := by
  constructor <;> rfl

/-- C2: a store reached from `NewMemoryStorage` by two creates whose draws
coincide holds two records with the same id: the second create was given an id
that a stored record already had. -/
theorem Create_duplicate_id :
    (run (NewMemoryStorage (constRand 5))
        [.create ⟨0, "A", "B"⟩, .create ⟨0, "C", "D"⟩]).books
      = [⟨5, "A", "B"⟩, ⟨5, "C", "D"⟩]
    ∧ ¬ ((run (NewMemoryStorage (constRand 5))
        [.create ⟨0, "A", "B"⟩, .create ⟨0, "C", "D"⟩]).books.map Book.ID).Nodup := by
  constructor <;> decide

/-- C3: on the store reached by two creates whose draws coincide, `Delete` of
that id succeeds, and afterwards `GetByID` of the id still succeeds and
`GetAll` still has a record with the id. -/
theorem Delete_leaves_duplicate :
    (Delete (run (NewMemoryStorage (constRand 5))
        [.create ⟨0, "A", "B"⟩, .create ⟨0, "C", "D"⟩]) 5).2 = none
    ∧ GetByID (Delete (run (NewMemoryStorage (constRand 5))
        [.create ⟨0, "A", "B"⟩, .create ⟨0, "C", "D"⟩]) 5).1 5 = .ok ⟨5, "C", "D"⟩
    ∧ GetAll (Delete (run (NewMemoryStorage (constRand 5))
        [.create ⟨0, "A", "B"⟩, .create ⟨0, "C", "D"⟩]) 5).1 = .ok [⟨5, "C", "D"⟩] := by
  refine ⟨?_, ?_, ?_⟩ <;> rfl

/-- C4: for an id that no stored record has, `GetByID` fails with
`ErrBookNotFound`, and `Delete` fails with `ErrBookNotFound` and returns the
store as it was (`GetByID` has no store result: it cannot change it). -/
theorem GetByID_Delete_absent (s : MemoryStorage) (id : Int)
    (h : ∀ b ∈ s.books, b.ID ≠ id) :
    GetByID s id = .error .ErrBookNotFound
    ∧ Delete s id = (s, some .ErrBookNotFound) := by
  constructor
  · exact getByIDLoop_absent id s.books h
  · simp only [Delete, findIndex_absent id s.books h]

theorem GetByID_Delete_absent_witness :
    (∀ b ∈ (MemoryStorage.mk [⟨1, "A", "B"⟩] (constRand 7)).books, b.ID ≠ 999999)
    ∧ GetByID (MemoryStorage.mk [⟨1, "A", "B"⟩] (constRand 7)) 999999
        = .error .ErrBookNotFound
    ∧ Delete (MemoryStorage.mk [⟨1, "A", "B"⟩] (constRand 7)) 999999
        = (MemoryStorage.mk [⟨1, "A", "B"⟩] (constRand 7), some .ErrBookNotFound) :=
  ⟨by decide, GetByID_Delete_absent _ 999999 (by decide)⟩

/-- C5: when some stored record has the id, `Update` succeeds and returns the
record made of the argument id and the new title and author; the collection
afterwards has the same length, holds that record at the first position whose
record had the id, and is unchanged at every other position. When no stored
record has the id, `Update` fails with `ErrBookNotFound` and returns the store
as it was. -/
theorem Update_postcondition (s : MemoryStorage) (id : Int) (book : Book) :
    ((∃ b ∈ s.books, b.ID = id) →
      (Update s id book).2 = .ok ⟨id, book.Title, book.Author⟩
      ∧ ∃ after : List Book, GetAll (Update s id book).1 = .ok after
        ∧ after.length = s.books.length
        ∧ ∃ i : Nat, (∃ b, s.books[i]? = some b ∧ b.ID = id)
          ∧ (∀ j : Nat, j < i → ∀ b, s.books[j]? = some b → b.ID ≠ id)
          ∧ after[i]? = some ⟨id, book.Title, book.Author⟩
          ∧ ∀ j : Nat, j ≠ i → after[j]? = s.books[j]?)
    ∧ ((∀ b ∈ s.books, b.ID ≠ id) →
      Update s id book = (s, .error .ErrBookNotFound)) := by
  obtain ⟨books, rng⟩ := s
  constructor
  · intro h
    obtain ⟨pre, x, post, hl, hx, hpre⟩ := split_at_first id books h
    subst hl
    rw [Update_split rng id book pre post x hpre hx]
    refine ⟨rfl, _, rfl, by simp, pre.length, ⟨x, getElem?_at pre post x, hx⟩, ?_,
      getElem?_at pre post _, ?_⟩
    · intro j hj b hb
      rw [List.getElem?_append_left hj] at hb
      exact hpre b (List.getElem?_mem hb)
    · intro j hj
      rcases Nat.lt_or_gt_of_ne hj with hlt | hgt
      · simp [GetAll, List.getElem?_append_left hlt]
      · obtain ⟨k, rfl⟩ : ∃ k, j = pre.length + (k + 1) :=
          ⟨j - pre.length - 1, by omega⟩
        simp [List.getElem?_append_right]
  · intro h
    simp only [Update, findIndex_absent id books h]

theorem Update_postcondition_witness :
    ((Update (MemoryStorage.mk [⟨1, "A", "B"⟩, ⟨2, "C", "D"⟩] (constRand 7)) 2
        ⟨9, "E", "F"⟩).2 = .ok ⟨2, "E", "F"⟩)
    ∧ Update (MemoryStorage.mk [⟨1, "A", "B"⟩, ⟨2, "C", "D"⟩] (constRand 7)) 3
        ⟨9, "E", "F"⟩
      = (MemoryStorage.mk [⟨1, "A", "B"⟩, ⟨2, "C", "D"⟩] (constRand 7),
         .error .ErrBookNotFound) :=
  ⟨((Update_postcondition _ 2 ⟨9, "E", "F"⟩).1 ⟨⟨2, "C", "D"⟩, by decide, rfl⟩).1,
   (Update_postcondition _ 3 ⟨9, "E", "F"⟩).2 (by decide)⟩

/-- C6: `GetAll` never fails and returns the stored sequence: on a new store
it is the empty sequence, and after `Create b` returns `c` it is the sequence
it was before followed by `c`, one longer, with the title and author of `b`
in `c`. -/
theorem GetAll_insertion_order :
    (∀ seeded, GetAll (NewMemoryStorage seeded) = .ok [])
    ∧ (∀ s, ∃ all, GetAll s = .ok all)
    ∧ ∀ s b, ∃ before c,
        GetAll s = .ok before
        ∧ (Create s b).2 = .ok c
        ∧ GetAll (Create s b).1 = .ok (before ++ [c])
        ∧ (before ++ [c]).length = before.length + 1
        ∧ c.Title = b.Title ∧ c.Author = b.Author := by
  refine ⟨fun _ => rfl, fun s => ⟨s.books, rfl⟩, fun s b => ?_⟩
  exact ⟨s.books, ⟨(s.rng.Intn 1000000).1, b.Title, b.Author⟩, rfl, rfl, rfl,
    by simp, rfl, rfl⟩

/-- C7: when `Delete` succeeds, the collection before is `pre ++ x :: post`
with `x` the first record that has the id, and the collection afterwards is
`pre ++ post`: one record with that id is gone, the length is one less, and
the others are all there, unchanged and in the same order. -/
theorem Delete_keeps_order (s : MemoryStorage) (id : Int)
    (hdel : (Delete s id).2 = none) :
    ∃ before pre x post,
      GetAll s = .ok before
      ∧ before = pre ++ x :: post
      ∧ x.ID = id
      ∧ (∀ b ∈ pre, b.ID ≠ id)
      ∧ GetAll (Delete s id).1 = .ok (pre ++ post)
      ∧ (pre ++ post).length + 1 = before.length := by
  obtain ⟨books, rng⟩ := s
  by_cases h : ∃ b ∈ books, b.ID = id
  · obtain ⟨pre, x, post, hl, hx, hpre⟩ := split_at_first id books h
    subst hl
    refine ⟨_, pre, x, post, rfl, rfl, hx, hpre, ?_, by simp; omega⟩
    rw [Delete_split rng id pre post x hpre hx]
    rfl
  · have habs : ∀ b ∈ books, b.ID ≠ id := fun b hb hbid => h ⟨b, hb, hbid⟩
    simp [Delete, findIndex_absent id books habs] at hdel

theorem Delete_keeps_order_witness :
    ∃ before pre x post,
      GetAll (MemoryStorage.mk [⟨1, "A", "B"⟩, ⟨2, "C", "D"⟩, ⟨3, "E", "F"⟩]
        (constRand 7)) = .ok before
      ∧ before = pre ++ x :: post
      ∧ x.ID = 2
      ∧ (∀ b ∈ pre, b.ID ≠ 2)
      ∧ GetAll (Delete (MemoryStorage.mk
          [⟨1, "A", "B"⟩, ⟨2, "C", "D"⟩, ⟨3, "E", "F"⟩] (constRand 7)) 2).1
        = .ok (pre ++ post)
      ∧ (pre ++ post).length + 1 = before.length :=
  Delete_keeps_order _ 2 rfl

/-- C8: on a new store whose generator draws 0, `Create` returns a record
whose id is 0. -/
theorem Create_id_zero :
    (Create (NewMemoryStorage (constRand 0)) ⟨0, "Test Book", "Test Author"⟩).2
      = .ok ⟨0, "Test Book", "Test Author"⟩ := by
  rfl

/-! ## The filter predicate -/

theorem lowerChar_lowerChar (c : Char) : lowerChar (lowerChar c) = lowerChar c := by
  unfold lowerChar
  by_cases h : 65 ≤ c.toNat ∧ c.toNat ≤ 90
  · simp only [h, and_self, if_true]
    obtain ⟨h1, h2⟩ := h
    generalize c.toNat = n at h1 h2
    interval_cases n <;> decide
  · simp [h]

theorem containsChars_self (s : List Char) : containsChars s s = true := by
  cases s <;> simp [containsChars, List.tails]

theorem mk_eq_empty (l : List Char) : String.mk l = "" ↔ l = [] := by
  constructor
  · intro h
    have h1 := congrArg String.data h
    simpa using h1
  · intro h
    subst h
    rfl

/-- The ASCII instance of the package `strings` has the three facts. -/
theorem asciiStrings_lawful : asciiStrings.Lawful where
  lower_lower := by
    intro s
    have h : lowerChar ∘ lowerChar = lowerChar := funext lowerChar_lowerChar
    simp [asciiStrings, h]
  lower_empty := by
    intro s
    obtain ⟨l⟩ := s
    simp only [asciiStrings, mk_eq_empty, List.map_eq_nil_iff]
  contains_self := by
    intro s
    exact containsChars_self s.data

/-- `Match` reads a filter field and a record field only through their
lower-cased forms and through whether the filter field is empty. -/
theorem Match_congr (L : Strings) (f g : BookFilters) (b c : Book)
    (hT : L.ToLower f.Title = L.ToLower g.Title) (hT0 : f.Title = "" ↔ g.Title = "")
    (hA : L.ToLower f.Author = L.ToLower g.Author) (hA0 : f.Author = "" ↔ g.Author = "")
    (hS : L.ToLower f.Search = L.ToLower g.Search) (hS0 : f.Search = "" ↔ g.Search = "")
    (hbT : L.ToLower b.Title = L.ToLower c.Title)
    (hbA : L.ToLower b.Author = L.ToLower c.Author) :
    BookFilters.Match L f b = BookFilters.Match L g c := by
  simp only [BookFilters.Match, hT, hA, hS, hbT, hbA, ne_eq, hT0, hA0, hS0]

theorem lowerIf_lower (L : Strings) (hL : L.Lawful) (c : Bool) (s : String) :
    L.ToLower (L.lowerIf c s) = L.ToLower s := by
  cases c
  · rfl
  · exact hL.lower_lower s

theorem lowerIf_empty (L : Strings) (hL : L.Lawful) (c : Bool) (s : String) :
    L.lowerIf c s = "" ↔ s = "" := by
  cases c
  · exact Iff.rfl
  · exact hL.lower_empty s

/-- C9: `Match` is true exactly when the search condition, the title condition
and the author condition all hold, each of them being "the filter field is
empty or the lower-cased record field contains the lower-cased filter field"
(for search: the title or the author); the id of the book plays no part. -/
theorem Match_is_conjunction (L : Strings) (f : BookFilters) (b : Book) :
    (BookFilters.Match L f b = true ↔
      (f.Search = ""
        ∨ L.Contains (L.ToLower b.Title) (L.ToLower f.Search) = true
        ∨ L.Contains (L.ToLower b.Author) (L.ToLower f.Search) = true)
      ∧ (f.Title = "" ∨ L.Contains (L.ToLower b.Title) (L.ToLower f.Title) = true)
      ∧ (f.Author = "" ∨ L.Contains (L.ToLower b.Author) (L.ToLower f.Author) = true))
    ∧ ∀ id : Int, BookFilters.Match L f ⟨id, b.Title, b.Author⟩
        = BookFilters.Match L f b := by
  refine ⟨?_, fun _ => rfl⟩
  unfold BookFilters.Match
  by_cases hS : f.Search = "" <;> by_cases hT : f.Title = "" <;>
    by_cases hA : f.Author = "" <;>
    cases L.Contains (L.ToLower b.Title) (L.ToLower f.Search) <;>
    cases L.Contains (L.ToLower b.Author) (L.ToLower f.Search) <;>
    cases L.Contains (L.ToLower b.Title) (L.ToLower f.Title) <;>
    cases L.Contains (L.ToLower b.Author) (L.ToLower f.Author) <;>
    simp [hS, hT, hA]

/-- C10: with a package `strings` that has the three facts, `Match` gives the
same answer when any of the three filter fields and the two record fields are
replaced by their lower-cased forms; a title, author or search value matches a
record field that has the same lower-cased form; and on ASCII strings the
search "go" matches the title "Go" and does not match the title "Rust" with
the author "K". -/
theorem Match_case_insensitive (L : Strings) (hL : L.Lawful) (f : BookFilters)
    (b : Book) :
    (∀ c1 c2 c3 c4 c5 : Bool,
      BookFilters.Match L
          ⟨L.lowerIf c1 f.Title, L.lowerIf c2 f.Author, L.lowerIf c3 f.Search⟩
          ⟨b.ID, L.lowerIf c4 b.Title, L.lowerIf c5 b.Author⟩
        = BookFilters.Match L f b)
    ∧ (∀ x : String, L.ToLower x = L.ToLower b.Title →
        BookFilters.Match L ⟨x, "", ""⟩ b = true
        ∧ BookFilters.Match L ⟨"", "", x⟩ b = true)
    ∧ (∀ x : String, L.ToLower x = L.ToLower b.Author →
        BookFilters.Match L ⟨"", x, ""⟩ b = true
        ∧ BookFilters.Match L ⟨"", "", x⟩ b = true)
    ∧ BookFilters.Match asciiStrings ⟨"", "", "go"⟩ ⟨1, "Go", "D"⟩ = true
    ∧ BookFilters.Match asciiStrings ⟨"", "", "go"⟩ ⟨2, "Rust", "K"⟩ = false := by
  refine ⟨?_, ?_, ?_, by decide, by decide⟩
  · intro c1 c2 c3 c4 c5
    exact Match_congr L _ f _ b (lowerIf_lower L hL c1 _) (lowerIf_empty L hL c1 _)
      (lowerIf_lower L hL c2 _) (lowerIf_empty L hL c2 _)
      (lowerIf_lower L hL c3 _) (lowerIf_empty L hL c3 _)
      (lowerIf_lower L hL c4 _) (lowerIf_lower L hL c5 _)
  · intro x hx
    simp [BookFilters.Match, hx, hL.contains_self]
  · intro x hx
    simp [BookFilters.Match, hx, hL.contains_self]

theorem Match_case_insensitive_witness :
    (∀ c1 c2 c3 c4 c5 : Bool,
      BookFilters.Match asciiStrings
          ⟨asciiStrings.lowerIf c1 "Go", asciiStrings.lowerIf c2 "Donovan",
           asciiStrings.lowerIf c3 "PROG"⟩
          ⟨7, asciiStrings.lowerIf c4 "Go Programming",
           asciiStrings.lowerIf c5 "Alan Donovan"⟩
        = BookFilters.Match asciiStrings ⟨"Go", "Donovan", "PROG"⟩
            ⟨7, "Go Programming", "Alan Donovan"⟩)
    ∧ BookFilters.Match asciiStrings ⟨"Go", "Donovan", "PROG"⟩
        ⟨7, "Go Programming", "Alan Donovan"⟩ = true :=
  ⟨(Match_case_insensitive asciiStrings asciiStrings_lawful ⟨"Go", "Donovan", "PROG"⟩
      ⟨7, "Go Programming", "Alan Donovan"⟩).1, by decide⟩

/-! ## The empty filter and validation -/

/-- C11: `HasFilters` is false exactly when the title, author and search
fields are all empty, and a filter on which it is false matches every book. -/
theorem HasFilters_false_matches_all (f : BookFilters) :
    (f.HasFilters = false ↔ f.Title = "" ∧ f.Author = "" ∧ f.Search = "")
    ∧ (f.HasFilters = false → ∀ (L : Strings) (b : Book),
        BookFilters.Match L f b = true) := by
  have h : f.HasFilters = false ↔ f.Title = "" ∧ f.Author = "" ∧ f.Search = "" := by
    simp [BookFilters.HasFilters]
  refine ⟨h, fun hf L b => ?_⟩
  obtain ⟨hT, hA, hS⟩ := h.mp hf
  simp [BookFilters.Match, hT, hA, hS]

theorem HasFilters_false_matches_all_witness :
    BookFilters.HasFilters ⟨"", "", ""⟩ = false
    ∧ BookFilters.Match asciiStrings ⟨"", "", ""⟩ ⟨3, "Any Book", "Any Author"⟩ = true :=
  ⟨by decide,
   (HasFilters_false_matches_all ⟨"", "", ""⟩).2 (by decide) asciiStrings
     ⟨3, "Any Book", "Any Author"⟩⟩

/-- C16: `Validate` returns `ErrInvalidTitle` exactly when the title is empty
(the author being empty or not), `ErrInvalidAuthor` exactly when the title is
not empty and the author is, and nil exactly when neither is empty; the id
plays no part. -/
theorem Validate_rejects_empty (b : Book) :
    (b.Validate = some .ErrInvalidTitle ↔ b.Title = "")
    ∧ (b.Validate = some .ErrInvalidAuthor ↔ b.Title ≠ "" ∧ b.Author = "")
    ∧ (b.Validate = none ↔ b.Title ≠ "" ∧ b.Author ≠ "")
    ∧ ∀ id : Int, Book.Validate ⟨id, b.Title, b.Author⟩ = b.Validate := by
  refine ⟨?_, ?_, ?_, fun _ => rfl⟩ <;>
    by_cases hT : b.Title = "" <;> by_cases hA : b.Author = "" <;>
    simp [Book.Validate, hT, hA]

/-! ## Pagination -/

theorem wrap64_of_range (x : Int) (h1 : -2 ^ 63 ≤ x) (h2 : x < 2 ^ 63) :
    wrap64 x = x := by
  unfold wrap64
  rw [Int.emod_eq_of_lt (by omega) (by omega)]
  omega

theorem wrap64_mul_wrap64 (a b : Int) : wrap64 (wrap64 a * b) = wrap64 (a * b) := by
  unfold wrap64
  have e : ((a + 2 ^ 63) % 2 ^ 64 - 2 ^ 63) * b + 2 ^ 63
      = (a * b + 2 ^ 63) + 2 ^ 64 * (-((a + 2 ^ 63) / 2 ^ 64) * b) := by
    have h2 : (a + 2 ^ 63) % 2 ^ 64 = a + 2 ^ 63 - 2 ^ 64 * ((a + 2 ^ 63) / 2 ^ 64) := by
      omega
    rw [h2]
    ring
  rw [e, Int.add_mul_emod_self_left]

/-- The page count that `NewPaginatedResponse` computes is the ceiling of
`total / pageSize`. -/
theorem totalPages_ceil (total pageSize : Int) (htotal : 0 ≤ total)
    (h64 : total < 2 ^ 63) (hsize : 1 ≤ pageSize) :
    0 ≤ (if rem64 total pageSize ≠ 0 then add64 (div64 total pageSize) 1
          else div64 total pageSize)
    ∧ total ≤ (if rem64 total pageSize ≠ 0 then add64 (div64 total pageSize) 1
          else div64 total pageSize) * pageSize
    ∧ ∀ n : Int, 0 ≤ n → total ≤ n * pageSize →
        (if rem64 total pageSize ≠ 0 then add64 (div64 total pageSize) 1
          else div64 total pageSize) ≤ n := by
  have hps : 0 ≤ pageSize := by omega
  have hq0 : 0 ≤ total / pageSize := Int.ediv_nonneg htotal hps
  have hr0 : 0 ≤ total % pageSize := Int.emod_nonneg total (by omega)
  have hr1 : total % pageSize < pageSize := Int.emod_lt_of_pos total (by omega)
  have hsplit : pageSize * (total / pageSize) + total % pageSize = total :=
    Int.ediv_add_emod total pageSize
  have hqle : total / pageSize ≤ total := by nlinarith
  simp only [div64, rem64, add64, Int.tdiv_eq_ediv htotal hps, Int.tmod_eq_emod htotal hps]
  rw [wrap64_of_range (total / pageSize) (by omega) (by omega)]
  by_cases hr : total % pageSize = 0
  · simp only [hr, ne_eq, not_true_eq_false, if_false]
    refine ⟨hq0, by nlinarith, fun n hn hle => ?_⟩
    by_contra hlt
    have hnq : n + 1 ≤ total / pageSize := by omega
    nlinarith
  · simp only [ne_eq, hr, not_false_eq_true, if_true]
    have hr2 : 1 ≤ total % pageSize := by omega
    have hmul : total / pageSize ≤ pageSize * (total / pageSize) := by nlinarith
    have hlt : total / pageSize < total := by omega
    rw [wrap64_of_range (total / pageSize + 1) (by omega) (by omega)]
    refine ⟨by omega, by nlinarith, fun n hn hle => ?_⟩
    by_contra hlt2
    have hnq : n ≤ total / pageSize := by omega
    have hmul2 : n * pageSize ≤ total / pageSize * pageSize :=
      Int.mul_le_mul_of_nonneg_right hnq hps
    have hcomm : total / pageSize * pageSize = pageSize * (total / pageSize) :=
      Int.mul_comm _ _
    omega

/-- C12: for a total from 0 up and a page size from 1 up (both Go `int`),
`NewPaginatedResponse` returns a response whose `TotalPages` is the least
`n ≥ 0` with `n * pageSize ≥ total`, which is 0 for the total 0, and whose
`Data`, `Page`, `PageSize` and `Total` are the arguments. -/
theorem NewPaginatedResponse_total_pages {α : Type} (data : α)
    (page pageSize total : Int) (htotal : 0 ≤ total) (h64 : total < 2 ^ 63)
    (hsize : 1 ≤ pageSize) :
    ∃ resp, NewPaginatedResponse data page pageSize total = some resp
      ∧ resp.Data = data ∧ resp.Page = page ∧ resp.PageSize = pageSize
      ∧ resp.Total = total
      ∧ 0 ≤ resp.TotalPages
      ∧ total ≤ resp.TotalPages * pageSize
      ∧ (∀ n : Int, 0 ≤ n → total ≤ n * pageSize → resp.TotalPages ≤ n)
      ∧ (total = 0 → resp.TotalPages = 0) := by
  have hne : pageSize ≠ 0 := by omega
  obtain ⟨h0, hle, hmin⟩ := totalPages_ceil total pageSize htotal h64 hsize
  refine ⟨⟨data, page, pageSize, total,
      if rem64 total pageSize ≠ 0 then add64 (div64 total pageSize) 1
      else div64 total pageSize⟩,
    by simp only [NewPaginatedResponse, hne, if_false], rfl, rfl, rfl, rfl,
    h0, hle, hmin, fun ht => ?_⟩
  have hz := hmin 0 (le_refl 0) (by omega)
  exact le_antisymm hz h0

theorem NewPaginatedResponse_total_pages_witness :
    NewPaginatedResponse [(7 : Nat)] 2 10 15 = some ⟨[7], 2, 10, 15, 2⟩
    ∧ NewPaginatedResponse ([] : List Nat) 1 10 0 = some ⟨[], 1, 10, 0, 0⟩
    ∧ ∃ resp, NewPaginatedResponse [(7 : Nat)] 2 10 15 = some resp
      ∧ resp.Data = [7] ∧ resp.Page = 2 ∧ resp.PageSize = 10
      ∧ resp.Total = 15
      ∧ 0 ≤ resp.TotalPages
      ∧ 15 ≤ resp.TotalPages * 10
      ∧ (∀ n : Int, 0 ≤ n → 15 ≤ n * 10 → resp.TotalPages ≤ n)
      ∧ ((15 : Int) = 0 → resp.TotalPages = 0) :=
  ⟨by decide, by decide,
   NewPaginatedResponse_total_pages [7] 2 10 15 (by decide) (by decide) (by decide)⟩

theorem parsePage_cases (Atoi : String → Option Int) (p : String) :
    1 ≤ parsePage Atoi p
    ∧ (∀ n : Int, p ≠ "" → Atoi p = some n → 0 < n → parsePage Atoi p = n)
    ∧ ((p = "" ∨ Atoi p = none ∨ ∃ n : Int, Atoi p = some n ∧ n ≤ 0) →
        parsePage Atoi p = 1) := by
  by_cases hp : p = ""
  · have hv : parsePage Atoi p = 1 := by simp [parsePage, hp]
    exact ⟨by omega, fun n hne _ _ => absurd hp hne, fun _ => hv⟩
  · cases hA : Atoi p with
    | none =>
      have hv : parsePage Atoi p = 1 := by simp [parsePage, hp, hA]
      exact ⟨by omega, fun n _ hn _ => Option.noConfusion hn, fun _ => hv⟩
    | some m =>
      by_cases hm : m > 0
      · have hv : parsePage Atoi p = m := by simp [parsePage, hp, hA, hm]
        refine ⟨by omega, fun n _ hn _ => by rw [hv]; exact Option.some.inj hn, ?_⟩
        rintro (h | h | ⟨n, hn, hle⟩)
        · exact absurd h hp
        · exact Option.noConfusion h
        · have hmn := Option.some.inj hn
          omega
      · have hv : parsePage Atoi p = 1 := by simp [parsePage, hp, hA, hm]
        refine ⟨by omega, fun n _ hn h0 => ?_, fun _ => hv⟩
        have hmn := Option.some.inj hn
        omega

theorem parsePageSize_cases (Atoi : String → Option Int) (ps : String) :
    1 ≤ parsePageSize Atoi ps ∧ parsePageSize Atoi ps ≤ 100
    ∧ (∀ n : Int, ps ≠ "" → Atoi ps = some n → 0 < n → n ≤ 100 →
        parsePageSize Atoi ps = n)
    ∧ ((ps = "" ∨ Atoi ps = none ∨ ∃ n : Int, Atoi ps = some n ∧ (n ≤ 0 ∨ 100 < n)) →
        parsePageSize Atoi ps = 10) := by
  by_cases hp : ps = ""
  · have hv : parsePageSize Atoi ps = 10 := by simp [parsePageSize, hp]
    exact ⟨by omega, by omega, fun n hne _ _ _ => absurd hp hne, fun _ => hv⟩
  · cases hA : Atoi ps with
    | none =>
      have hv : parsePageSize Atoi ps = 10 := by simp [parsePageSize, hp, hA]
      exact ⟨by omega, by omega, fun n _ hn _ _ => Option.noConfusion hn, fun _ => hv⟩
    | some m =>
      by_cases hm : m > 0 ∧ m ≤ 100
      · have hv : parsePageSize Atoi ps = m := by simp [parsePageSize, hp, hA, hm]
        obtain ⟨hm1, hm2⟩ := hm
        refine ⟨by omega, by omega,
          fun n _ hn _ _ => by rw [hv]; exact Option.some.inj hn, ?_⟩
        rintro (h | h | ⟨n, hn, hle⟩)
        · exact absurd h hp
        · exact Option.noConfusion h
        · have hmn := Option.some.inj hn
          omega
      · have hv : parsePageSize Atoi ps = 10 := by simp [parsePageSize, hp, hA, hm]
        refine ⟨by omega, by omega, fun n _ hn h0 h100 => ?_, fun _ => hv⟩
        have hmn := Option.some.inj hn
        exact absurd ⟨by omega, by omega⟩ hm

theorem ParsePaginationParams_bounds (Atoi : String → Option Int) (r : Request) :
    1 ≤ (ParsePaginationParams Atoi r).Page
    ∧ 1 ≤ (ParsePaginationParams Atoi r).PageSize
    ∧ (ParsePaginationParams Atoi r).PageSize ≤ 100 :=
  ⟨(parsePage_cases Atoi (r.Get "page")).1,
   (parsePageSize_cases Atoi (r.Get "page_size")).1,
   (parsePageSize_cases Atoi (r.Get "page_size")).2.1⟩

/-- C13: whatever the request, `ParsePaginationParams` returns a page of at
least 1 and a page size from 1 to 100. The page is the value `strconv.Atoi`
parses from a non-empty `page` parameter when that value is above 0, and 1
when the parameter is absent, does not parse, or parses to 0 or less. The page
size is the parsed value of a non-empty `page_size` parameter when it lies
in 1..100, and 10 when the parameter is absent, does not parse, or parses to
0 or less or to more than 100. -/
theorem ParsePaginationParams_accepted (Atoi : String → Option Int) (r : Request) :
    1 ≤ (ParsePaginationParams Atoi r).Page
    ∧ 1 ≤ (ParsePaginationParams Atoi r).PageSize
    ∧ (ParsePaginationParams Atoi r).PageSize ≤ 100
    ∧ (∀ n : Int, r.Get "page" ≠ "" → Atoi (r.Get "page") = some n → 0 < n →
        (ParsePaginationParams Atoi r).Page = n)
    ∧ ((r.Get "page" = "" ∨ Atoi (r.Get "page") = none
          ∨ ∃ n : Int, Atoi (r.Get "page") = some n ∧ n ≤ 0) →
        (ParsePaginationParams Atoi r).Page = 1)
    ∧ (∀ n : Int, r.Get "page_size" ≠ "" → Atoi (r.Get "page_size") = some n →
        0 < n → n ≤ 100 → (ParsePaginationParams Atoi r).PageSize = n)
    ∧ ((r.Get "page_size" = "" ∨ Atoi (r.Get "page_size") = none
          ∨ ∃ n : Int, Atoi (r.Get "page_size") = some n ∧ (n ≤ 0 ∨ 100 < n)) →
        (ParsePaginationParams Atoi r).PageSize = 10) := by
  obtain ⟨hp1, hp2, hp3⟩ := parsePage_cases Atoi (r.Get "page")
  obtain ⟨hs1, hs2, hs3, hs4⟩ := parsePageSize_cases Atoi (r.Get "page_size")
  exact ⟨hp1, hs1, hs2, hp2, hp3, hs3, hs4⟩

theorem ParsePaginationParams_accepted_witness :
    (ParsePaginationParams decAtoi (listRequest "GET" "3" "20")).Page = 3
    ∧ (ParsePaginationParams decAtoi (listRequest "GET" "3" "20")).PageSize = 20
    ∧ (ParsePaginationParams decAtoi (listRequest "GET" "abc" "101")).Page = 1
    ∧ (ParsePaginationParams decAtoi (listRequest "GET" "abc" "101")).PageSize = 10
    ∧ (ParsePaginationParams decAtoi (listRequest "GET" "-4" "0")).Page = 1
    ∧ (ParsePaginationParams decAtoi (listRequest "GET" "-4" "0")).PageSize = 10 :=
  ⟨(ParsePaginationParams_accepted decAtoi (listRequest "GET" "3" "20")).2.2.2.1 3
      (by decide) (by decide) (by decide),
   (ParsePaginationParams_accepted decAtoi (listRequest "GET" "3" "20")).2.2.2.2.2.1 20
      (by decide) (by decide) (by decide) (by decide),
   (ParsePaginationParams_accepted decAtoi (listRequest "GET" "abc" "101")).2.2.2.2.1
      (Or.inr (Or.inl (by decide))),
   (ParsePaginationParams_accepted decAtoi (listRequest "GET" "abc" "101")).2.2.2.2.2.2
      (Or.inr (Or.inr ⟨101, by decide, Or.inr (by decide)⟩)),
   (ParsePaginationParams_accepted decAtoi (listRequest "GET" "-4" "0")).2.2.2.2.1
      (Or.inr (Or.inr ⟨-4, by decide, by decide⟩)),
   (ParsePaginationParams_accepted decAtoi (listRequest "GET" "-4" "0")).2.2.2.2.2.2
      (Or.inr (Or.inr ⟨0, by decide, Or.inl (by decide)⟩))⟩

/-- C14, the claim as stated fails: for the request `page=9223372036854775807`
the parser accepts the page, the page size is the default 10, and the offset
is -20, which is neither the product `(Page - 1) * PageSize` nor 0 or more. -/
theorem Offset_overflow :
    (ParsePaginationParams decAtoi
        (listRequest "GET" "9223372036854775807" "")).Page = 9223372036854775807
    ∧ (ParsePaginationParams decAtoi
        (listRequest "GET" "9223372036854775807" "")).PageSize = 10
    ∧ (ParsePaginationParams decAtoi
        (listRequest "GET" "9223372036854775807" "")).Offset = -20
    ∧ (ParsePaginationParams decAtoi
        (listRequest "GET" "9223372036854775807" "")).Offset
      ≠ ((ParsePaginationParams decAtoi
          (listRequest "GET" "9223372036854775807" "")).Page - 1)
        * (ParsePaginationParams decAtoi
          (listRequest "GET" "9223372036854775807" "")).PageSize
    ∧ ¬ 0 ≤ (ParsePaginationParams decAtoi
        (listRequest "GET" "9223372036854775807" "")).Offset := by
  decide

/-- C14, amended: the offset is the product `(Page - 1) * PageSize` brought
into the range of a 64-bit signed integer; whenever that product is below
`2^63`, which it is for every page up to 92233720368547759, the offset is the
exact product and is 0 or more. -/
theorem Offset_is_wrapped_product (Atoi : String → Option Int) (r : Request) :
    (ParsePaginationParams Atoi r).Offset
      = wrap64 (((ParsePaginationParams Atoi r).Page - 1)
          * (ParsePaginationParams Atoi r).PageSize)
    ∧ ((((ParsePaginationParams Atoi r).Page - 1)
          * (ParsePaginationParams Atoi r).PageSize < 2 ^ 63) →
        (ParsePaginationParams Atoi r).Offset
          = ((ParsePaginationParams Atoi r).Page - 1)
            * (ParsePaginationParams Atoi r).PageSize
        ∧ 0 ≤ (ParsePaginationParams Atoi r).Offset)
    ∧ ((ParsePaginationParams Atoi r).Page ≤ 92233720368547759 →
        (ParsePaginationParams Atoi r).Offset
          = ((ParsePaginationParams Atoi r).Page - 1)
            * (ParsePaginationParams Atoi r).PageSize
        ∧ 0 ≤ (ParsePaginationParams Atoi r).Offset) := by
  obtain ⟨hp1, hs1, hs2⟩ := ParsePaginationParams_bounds Atoi r
  have hoff : (ParsePaginationParams Atoi r).Offset
      = wrap64 (((ParsePaginationParams Atoi r).Page - 1)
          * (ParsePaginationParams Atoi r).PageSize) := by
    simp only [ParsePaginationParams, mul64, sub64, wrap64_mul_wrap64]
  have hnonneg : 0 ≤ ((ParsePaginationParams Atoi r).Page - 1)
      * (ParsePaginationParams Atoi r).PageSize :=
    Int.mul_nonneg (by omega) (by omega)
  have hexact : (((ParsePaginationParams Atoi r).Page - 1)
      * (ParsePaginationParams Atoi r).PageSize < 2 ^ 63) →
      (ParsePaginationParams Atoi r).Offset
        = ((ParsePaginationParams Atoi r).Page - 1)
          * (ParsePaginationParams Atoi r).PageSize
      ∧ 0 ≤ (ParsePaginationParams Atoi r).Offset := by
    intro hlt
    rw [hoff, wrap64_of_range _ (by omega) hlt]
    exact ⟨rfl, hnonneg⟩
  refine ⟨hoff, hexact, fun hpage => hexact ?_⟩
  have h1 : ((ParsePaginationParams Atoi r).Page - 1)
      * (ParsePaginationParams Atoi r).PageSize
      ≤ 92233720368547758 * 100 :=
    Int.mul_le_mul (by omega) hs2 (by omega) (by omega)
  omega

theorem Offset_is_wrapped_product_witness :
    (ParsePaginationParams decAtoi (listRequest "GET" "3" "20")).Offset
      = ((ParsePaginationParams decAtoi (listRequest "GET" "3" "20")).Page - 1)
        * (ParsePaginationParams decAtoi (listRequest "GET" "3" "20")).PageSize
    ∧ 0 ≤ (ParsePaginationParams decAtoi (listRequest "GET" "3" "20")).Offset
    ∧ (ParsePaginationParams decAtoi (listRequest "GET" "3" "20")).Offset = 40 :=
  ⟨((Offset_is_wrapped_product decAtoi (listRequest "GET" "3" "20")).2.1
      (by decide)).1,
   ((Offset_is_wrapped_product decAtoi (listRequest "GET" "3" "20")).2.1
      (by decide)).2,
   by decide⟩

/-! ## The list request, concurrent creates and the id range -/

/-- `HandleBooks` on a GET request answers 200 with the slice `GetAll`
returned, whatever the query parameters, and leaves the store as it was. -/
theorem HandleBooks_GET (s : MemoryStorage) (r : Request) (body : Option Book)
    (hget : r.Method = "GET") :
    HandleBooks s r body = (s, ⟨200, .books s.books⟩) := by
  simp [HandleBooks, hget, getBooks, GetAll]

/-- C15: with 2 stored books and no parameters, and with 15 stored books,
`page=2` and `page_size=10`, the GET handler answers 200 with the bare list of
all stored books (2 and 15 of them): the body is a JSON array, not an object
with `data`, `total` and `total_pages`, and no window is taken. -/
theorem getBooks_returns_all :
    (HandleBooks
        (run (NewMemoryStorage countRand)
          [.create ⟨0, "Book 1", "Author 1"⟩, .create ⟨0, "Book 2", "Author 2"⟩])
        (listRequest "GET" "" "") none).2
      = ⟨200, .books [⟨1, "Book 1", "Author 1"⟩, ⟨2, "Book 2", "Author 2"⟩]⟩
    ∧ (HandleBooks
        (run (NewMemoryStorage countRand)
          (List.replicate 15 (.create ⟨0, "Book", "Author"⟩)))
        (listRequest "GET" "2" "10") none).2
      = ⟨200, .books ((List.range 15).map fun i => ⟨(i : Int) + 1, "Book", "Author"⟩)⟩ := by
  constructor <;> decide

/-- A sequence of creates adds one record per create. -/
theorem run_creates_length (books : List Book) (s : MemoryStorage) :
    (run s (books.map Op.create)).books.length = s.books.length + books.length := by
  induction books generalizing s with
  | nil => rfl
  | cons b rest ih =>
    have h := ih (step s (.create b))
    simp only [run, List.map_cons, List.foldl_cons] at h ⊢
    rw [h]
    simp only [step, Create, List.length_append, List.length_cons, List.length_nil]
    omega

/-- C17: ten creates on a new store, each an atomic step under the lock (in
whatever order the goroutines take it, the ten calls being the same), with a
generator whose tenth draw repeats the first: the store holds ten records,
and the first and the last of them have the same id, so the ten ids are not
pairwise distinct. -/
theorem concurrent_creates_same_id :
    (run (NewMemoryStorage (cycleRand 9))
        (List.replicate 10 (.create ⟨0, "Concurrent Book", "Test Author"⟩))).books.length
      = 10
    ∧ (run (NewMemoryStorage (cycleRand 9))
        (List.replicate 10 (.create ⟨0, "Concurrent Book", "Test Author"⟩))).books.map
          Book.ID
      = [1, 2, 3, 4, 5, 6, 7, 8, 9, 1]
    ∧ ¬ ((run (NewMemoryStorage (cycleRand 9))
        (List.replicate 10 (.create ⟨0, "Concurrent Book", "Test Author"⟩))).books.map
          Book.ID).Nodup := by
  refine ⟨?_, ?_, ?_⟩ <;> decide

/-- Every id that `Create` assigns lies in `[0, 1000000)`. -/
theorem Intn_range (rng : Rand) :
    0 ≤ (rng.Intn 1000000).1 ∧ (rng.Intn 1000000).1 < 1000000 := by
  simp only [Rand.Intn]
  have h : rng.draws 0 % 1000000 < 1000000 := Nat.mod_lt _ (by decide)
  omega

/-- One mutating call keeps every stored id in `[0, 1000000)`. -/
theorem step_ids_range (s : MemoryStorage) (op : Op)
    (h : ∀ b ∈ s.books, 0 ≤ b.ID ∧ b.ID < 1000000) :
    ∀ b ∈ (step s op).books, 0 ≤ b.ID ∧ b.ID < 1000000 := by
  cases op with
  | create book =>
    intro b hb
    simp only [step, Create, List.mem_append, List.mem_singleton] at hb
    rcases hb with hb | rfl
    · exact h b hb
    · exact Intn_range s.rng
  | update id book =>
    intro b hb
    have hids := Update_ids s id book
    have hmem : b.ID ∈ (Update s id book).1.books.map Book.ID :=
      List.mem_map_of_mem Book.ID hb
    rw [hids] at hmem
    obtain ⟨c, hc, hcb⟩ := List.mem_map.mp hmem
    rw [← hcb]
    exact h c hc
  | delete id =>
    intro b hb
    obtain ⟨books, rng⟩ := s
    by_cases hex : ∃ c ∈ books, c.ID = id
    · obtain ⟨pre, x, post, hl, hx, hpre⟩ := split_at_first id books hex
      subst hl
      simp only [step, Delete_split rng id pre post x hpre hx, List.mem_append] at hb
      rcases hb with hb | hb
      · exact h b (List.mem_append_left _ hb)
      · exact h b (List.mem_append_right _ (List.mem_cons_of_mem x hb))
    · have habs : ∀ c ∈ books, c.ID ≠ id := fun c hc hcid => hex ⟨c, hc, hcid⟩
      simp only [step, Delete, findIndex_absent id books habs] at hb
      exact h b hb

/-- Every store reached from a store whose ids lie in `[0, 1000000)` has its
ids in that range. -/
theorem run_ids_range (ops : List Op) (s : MemoryStorage)
    (h : ∀ b ∈ s.books, 0 ≤ b.ID ∧ b.ID < 1000000) :
    ∀ b ∈ (run s ops).books, 0 ≤ b.ID ∧ b.ID < 1000000 := by
  induction ops generalizing s with
  | nil => exact h
  | cons op rest ih => exact ih (step s op) (step_ids_range s op h)

/-- At most 1000000 pairwise distinct integers lie in `[0, 1000000)`. -/
theorem nodup_range_length (l : List Int) (hnodup : l.Nodup)
    (h : ∀ x ∈ l, 0 ≤ x ∧ x < 1000000) : l.length ≤ 1000000 := by
  have hmap : (l.map Int.toNat).Nodup := by
    refine List.Nodup.map_on ?_ hnodup
    intro x hx y hy hxy
    have h1 := (h x hx).1
    have h2 := (h y hy).1
    omega
  have hsub : l.map Int.toNat ⊆ List.range 1000000 := by
    intro n hn
    obtain ⟨x, hx, rfl⟩ := List.mem_map.mp hn
    have h1 := h x hx
    exact List.mem_range.mpr (by omega)
  have hlen := (List.subperm_of_subset hmap hsub).length_le
  simpa using hlen

/-- C18: `Create` returns a nil error and a record whose id lies in
`[0, 1000000)`, with the title and author given; the id the caller put in the
book changes neither the result nor the stored collection, and any two input
books get the same id from the same store. Every store reached from a new one
has all its ids in `[0, 1000000)`, so when its ids are pairwise distinct it
holds at most 1000000 records. -/
theorem Create_id_range (s : MemoryStorage) (book : Book) :
    (∃ c, (Create s book).2 = .ok c ∧ 0 ≤ c.ID ∧ c.ID < 1000000
        ∧ c.Title = book.Title ∧ c.Author = book.Author)
    ∧ (∀ id : Int,
        (Create s ⟨id, book.Title, book.Author⟩).2 = (Create s book).2
        ∧ (Create s ⟨id, book.Title, book.Author⟩).1.books = (Create s book).1.books)
    ∧ (∀ other : Book, ∃ c d, (Create s book).2 = .ok c
        ∧ (Create s other).2 = .ok d ∧ c.ID = d.ID)
    ∧ ∀ (seeded : Rand) (ops : List Op),
        (∀ b ∈ (run (NewMemoryStorage seeded) ops).books, 0 ≤ b.ID ∧ b.ID < 1000000)
        ∧ (((run (NewMemoryStorage seeded) ops).books.map Book.ID).Nodup →
            (run (NewMemoryStorage seeded) ops).books.length ≤ 1000000) := by
  refine ⟨⟨⟨(s.rng.Intn 1000000).1, book.Title, book.Author⟩, rfl,
      (Intn_range s.rng).1, (Intn_range s.rng).2, rfl, rfl⟩,
    fun _ => ⟨rfl, rfl⟩,
    fun other => ⟨⟨(s.rng.Intn 1000000).1, book.Title, book.Author⟩,
      ⟨(s.rng.Intn 1000000).1, other.Title, other.Author⟩, rfl, rfl, rfl⟩,
    fun seeded ops => ?_⟩
  have hrange := run_ids_range ops (NewMemoryStorage seeded)
    (fun b hb => absurd hb (List.not_mem_nil b))
  refine ⟨hrange, fun hnodup => ?_⟩
  have hlen := nodup_range_length _ hnodup (fun x hx => by
    obtain ⟨b, hb, rfl⟩ := List.mem_map.mp hx
    exact hrange b hb)
  simpa using hlen

theorem Create_id_range_witness :
    ((run (NewMemoryStorage countRand)
        [.create ⟨77, "A", "B"⟩, .create ⟨-1, "C", "D"⟩]).books.map Book.ID).Nodup
    ∧ (run (NewMemoryStorage countRand)
        [.create ⟨77, "A", "B"⟩, .create ⟨-1, "C", "D"⟩]).books.length ≤ 1000000 :=
  ⟨by decide,
   ((Create_id_range (NewMemoryStorage countRand) ⟨77, "A", "B"⟩).2.2.2 countRand
      [.create ⟨77, "A", "B"⟩, .create ⟨-1, "C", "D"⟩]).2 (by decide)⟩

end BookApi
